import Mathlib

/-!
Shallow embedding of the flash-report ingestion core (`data_loader.py`) of the
IWI Sales Dashboard: cell-value coercions (`safe_float`, `safe_int`), header
date extraction (`parse_date_from_cell`), the fixed-layout sheet parser
(`parse_flash_report`), and the per-date aggregator (`load_all_reports`).

Modelling conventions:
* Spreadsheet cell values (as surfaced by openpyxl) are `Value`:
  empty (`Value.none`, Python `None`), text, or a number.  Python numbers are
  modelled as exact rationals; IEEE rounding of decimal literals is idealised
  away, while the non-finite parses `inf`/`nan` of Python's `float()` are kept,
  since the program's behaviour on them is observable.
* Python exceptions are modelled with `Except PyErr`; the `try/except` blocks
  of the source become explicit matches on the error constructor.
* `str()` of a numeric cell is modelled by `numRepr`; every numeric repr is
  free of letters and contains at most one `/`-free decimal marker, which is
  all the substring tests and the two-slash date regex of this program can
  observe.
-/

deriving instance DecidableEq for Except

/-- Python exception classes that the modelled code can raise or catch. -/
inductive PyErr where
  | valueError
  | typeError
  | overflowError
  | keyError
  | ioError
  deriving DecidableEq, Repr

/-- Result of Python's `float()`: a finite value (exact rational model) or one
of the non-finite parses `inf`, `-inf`, `nan`. -/
inductive PyFloat where
  | finite (q : ℚ)
  | inf
  | neginf
  | nan
  deriving DecidableEq, Repr

/-- Raw spreadsheet cell content as produced by openpyxl: `None`, text, or a
number (int and float cells are both exact rationals here). -/
inductive Value where
  | none
  | str (s : String)
  | num (q : ℚ)
  deriving DecidableEq, Repr

/-- Python truthiness of a cell value: `None`, `""` and `0` are falsy. -/
def isFalsy : Value → Bool
  | .none => true
  | .str s => s = ""
  | .num q => q = 0

/-- The emptiness test `val is None or val == '' or val == '-'` shared by
`safe_float` and `safe_int`.  A numeric cell never equals `''` or `'-'`. -/
def isEmptyMarker : Value → Bool
  | .none => true
  | .str s => s = "" || s = "-"
  | .num _ => false

/-- Character-list whitespace strip, both ends (Python `str.strip()` as used by
`float()`'s argument handling). -/
def stripChars (cs : List Char) : List Char :=
  ((cs.dropWhile Char.isWhitespace).reverse.dropWhile Char.isWhitespace).reverse

/-- Numeric value of a list of decimal digit characters. -/
def digitsToNat (ds : List Char) : Nat :=
  ds.foldl (fun a c => 10 * a + (c.toNat - 48)) 0

/-- Decimal digits (at most `fuel` of them) of the fractional part of
`num / den`; exact for terminating expansions that fit in the fuel. -/
def fracDigits : Nat → Nat → Nat → List Char
  | 0, _, _ => []
  | _ + 1, 0, _ => []
  | fuel + 1, num, den =>
    let d := 10 * num / den
    Char.ofNat (48 + d) :: fracDigits fuel (10 * num % den) den

/-- Model of Python `str()` on a numeric cell: integer cells print as plain
integers, float cells with a decimal point (expansion truncated at 20 digits;
exact for the dyadic rationals that actual float cells hold). -/
def numRepr (q : ℚ) : String :=
  let sign := if q.num < 0 then "-" else ""
  let ip : Nat := q.num.natAbs / q.den
  if q.den = 1 then sign ++ toString ip
  else sign ++ toString ip ++ "." ++ String.mk (fracDigits 20 (q.num.natAbs % q.den) q.den)

/-- Model of Python `str()` on a cell value. -/
def pyStr : Value → String
  | .none => "None"
  | .str s => s
  | .num q => numRepr q

/-- Whether `pat` occurs as a contiguous substring of `hay` (Python's
case-sensitive `pat in hay`). -/
def containsSub (hay pat : String) : Bool :=
  hay.data.tails.any (fun t => pat.data.isPrefixOf t)

/-- Optional exponent suffix of a float literal: nothing, or `e`/`E`, an
optional sign, and at least one digit reaching the end of the string. -/
def parseExp : List Char → Option Int
  | [] => some 0
  | c :: rest =>
    if c = 'e' ∨ c = 'E' then
      let (sgn, rest2) : Int × List Char :=
        match rest with
        | '+' :: r => (1, r)
        | '-' :: r => (-1, r)
        | r => (1, r)
      let ds := rest2.takeWhile Char.isDigit
      if ds.isEmpty ∨ rest2.drop ds.length ≠ [] then none
      else some (sgn * (digitsToNat ds : Int))
    else none

/-- Exact rational value `mantissa * 10 ^ (exp10 - scale)` of a decimal
literal whose digits (integer and fractional concatenated) denote `mantissa`,
with `scale` fractional digits and exponent part `exp10`.  Built with `mkRat`
and integer arithmetic so it evaluates inside the kernel. -/
def decValue (mantissa scale : Nat) (exp10 : Int) : ℚ :=
  if (scale : Int) ≤ exp10 then
    mkRat ((mantissa * 10 ^ (exp10 - scale).toNat : Nat) : Int) 1
  else mkRat (mantissa : Int) (10 ^ ((scale : Int) - exp10).toNat)

/-- Unsigned float literal: digits, optional `.` plus digits (at least one
digit overall), optional exponent.  Returns its exact rational value. -/
def parseUnsigned (cs : List Char) : Option ℚ :=
  let ds1 := cs.takeWhile Char.isDigit
  let rest1 := cs.drop ds1.length
  match rest1 with
  | '.' :: rest2 =>
    let ds2 := rest2.takeWhile Char.isDigit
    let rest3 := rest2.drop ds2.length
    if ds1.isEmpty && ds2.isEmpty then none
    else (parseExp rest3).map fun e => decValue (digitsToNat (ds1 ++ ds2)) ds2.length e
  | rest =>
    if ds1.isEmpty then none
    else (parseExp rest).map fun e => decValue (digitsToNat ds1) 0 e

/-- Model of CPython `float(str)`: strip whitespace, optional sign, then a
numeric literal or the case-insensitive words `inf`/`infinity`/`nan`.
Underscore digit separators are not modelled. -/
def pyParseFloat (s : String) : Option PyFloat :=
  let cs := stripChars s.data
  let (neg, body) : Bool × List Char :=
    match cs with
    | '+' :: r => (false, r)
    | '-' :: r => (true, r)
    | r => (false, r)
  let lower := body.map Char.toLower
  if lower = "inf".data ∨ lower = "infinity".data then
    some (if neg then .neginf else .inf)
  else if lower = "nan".data then some .nan
  else
    (parseUnsigned body).map fun q => .finite (if neg then -q else q)

/-- Parse outcome of `float()` on text: success, or the `ValueError` the
builtin raises. -/
def exceptOfParse : Option PyFloat → Except PyErr PyFloat
  | some f => .ok f
  | none => .error .valueError

/-- Python `float(val)` on a cell value, with the exceptions it raises:
`TypeError` on `None`, `ValueError` on unparsable text. -/
def pyFloatOf : Value → Except PyErr PyFloat
  | .none => .error .typeError
  | .str s => exceptOfParse (pyParseFloat s)
  | .num q => .ok (.finite q)

/-- Truncation toward zero, Python's `int()` on a finite float. -/
def truncRat (q : ℚ) : Int :=
  if 0 ≤ q then q.floor else q.ceil

/-- Python `int()` on a float: truncates finite values, raises
`OverflowError` on `±inf` and `ValueError` on `nan`. -/
def pyIntOfFloat : PyFloat → Except PyErr Int
  | .finite q => .ok (truncRat q)
  | .inf => .error .overflowError
  | .neginf => .error .overflowError
  | .nan => .error .valueError

/-- The combinator `try: ... except (ValueError, TypeError): return default`:
those two error classes become the default, anything else propagates. -/
def catchVT (dflt : α) : Except PyErr α → Except PyErr α
  | .ok a => .ok a
  | .error .valueError => .ok dflt
  | .error .typeError => .ok dflt
  | .error e => .error e

/-- The source's `safe_float(val, default=0.0)`: default on the empty markers,
`float(val)` otherwise, catching `ValueError` and `TypeError` only. -/
def safe_float (val : Value) : Except PyErr PyFloat :=
  if isEmptyMarker val then .ok (.finite 0)
  else catchVT (.finite 0) (pyFloatOf val)

/-- The source's `safe_int(val, default=0)`: default on the empty markers,
`int(float(val))` otherwise, catching `ValueError` and `TypeError` only —
notably not `OverflowError`. -/
def safe_int (val : Value) : Except PyErr Int :=
  if isEmptyMarker val then .ok 0
  else catchVT 0 (pyFloatOf val >>= pyIntOfFloat)

/-- The value `safe_float` returns; `safe_float` never raises (its only
reachable errors are the two caught classes), as `safe_float_eq_ok` proves. -/
def sfloatD (val : Value) : PyFloat :=
  match safe_float val with
  | .ok f => f
  | .error _ => .finite 0

theorem safe_float_eq_ok (val : Value) : safe_float val = .ok (sfloatD val) := by
  unfold sfloatD safe_float
  cases val with
  | none => rfl
  | str s =>
    by_cases hs : isEmptyMarker (.str s)
    · simp [hs]
    · simp only [hs, if_false, Bool.false_eq_true, pyFloatOf]
      cases pyParseFloat s <;> rfl
  | num q => rfl

theorem pyFloatOf_error (v : Value) (e : PyErr) (h : pyFloatOf v = .error e) :
    e = .valueError ∨ e = .typeError := by
  cases v with
  | none =>
    simp only [pyFloatOf, Except.error.injEq] at h
    exact Or.inr h.symm
  | str s =>
    simp only [pyFloatOf] at h
    cases hp : pyParseFloat s with
    | none =>
      rw [hp] at h
      simp only [exceptOfParse, Except.error.injEq] at h
      exact Or.inl h.symm
    | some f =>
      rw [hp] at h
      simp [exceptOfParse] at h
  | num q => simp [pyFloatOf] at h

/-- A calendar date as produced by `datetime.date`. -/
structure Date where
  year : Nat
  month : Nat
  day : Nat
  deriving DecidableEq, Repr

/-- Gregorian leap-year rule used by `datetime`. -/
def isLeap (y : Nat) : Bool :=
  (y % 4 = 0 && y % 100 ≠ 0) || y % 400 = 0

/-- Number of days of month `m` in year `y`. -/
def daysInMonth (y m : Nat) : Nat :=
  if m = 2 then (if isLeap y then 29 else 28)
  else if m = 4 ∨ m = 6 ∨ m = 9 ∨ m = 11 then 30
  else 31

/-- Whether `m/d/y` is a calendar date `datetime.strptime` accepts
(month 1–12, day within the month, year at least `MINYEAR = 1`). -/
def validMDY (m d y : Nat) : Bool :=
  1 ≤ m && m ≤ 12 && 1 ≤ d && d ≤ daysInMonth y m && 1 ≤ y

/-- Python's `datetime.strptime(tok, '%m/%d/%Y').date()` on a token with
numeric fields `m`, `d`, `y`: the date when valid, `ValueError` otherwise. -/
def strptimeMDY (m d y : Nat) : Except PyErr Date :=
  if validMDY m d y then .ok ⟨y, m, d⟩ else .error .valueError

/-- Greedy match of `\d{1,2}` at the head of `cs`, with backtracking: two
digits are preferred, one is retried if the continuation `k` fails. -/
def matchDigits12 (cs : List Char) (k : Nat → List Char → Option α) : Option α :=
  match cs with
  | a :: b :: rest =>
    if a.isDigit then
      if b.isDigit then
        match k (10 * (a.toNat - 48) + (b.toNat - 48)) rest with
        | some r => some r
        | none => k (a.toNat - 48) (b :: rest)
      else k (a.toNat - 48) (b :: rest)
    else none
  | [a] => if a.isDigit then k (a.toNat - 48) [] else none
  | [] => none

/-- Match `\d{4}` exactly at the head of `cs` (trailing text unconstrained). -/
def matchYear4 : List Char → Option Nat
  | a :: b :: c :: d :: _ =>
    if a.isDigit && b.isDigit && c.isDigit && d.isDigit then
      some (digitsToNat [a, b, c, d])
    else none
  | _ => none

/-- Match the whole pattern `\d{1,2}/\d{1,2}/\d{4}` at this exact position,
returning the numeric month/day/year fields of the matched token. -/
def matchMDYAt (cs : List Char) : Option (Nat × Nat × Nat) :=
  matchDigits12 cs fun m rest1 =>
    match rest1 with
    | '/' :: rest2 =>
      matchDigits12 rest2 fun d rest3 =>
        match rest3 with
        | '/' :: rest4 => (matchYear4 rest4).map fun y => (m, d, y)
        | _ => none
    | _ => none

/-- Leftmost-first regex search of `\d{1,2}/\d{1,2}/\d{4}` (Python
`re.search`): try every start position left to right. -/
def searchMDY : List Char → Option (Nat × Nat × Nat)
  | [] => none
  | c :: rest =>
    match matchMDYAt (c :: rest) with
    | some r => some r
    | none => searchMDY rest

/-- The source's `parse_date_from_cell(value)`: `None` for falsy cells or
cells without a date token; otherwise `strptime` on the first token found,
whose `ValueError` on a non-calendar token propagates. -/
def parse_date_from_cell (value : Value) : Except PyErr (Option Date) :=
  if isFalsy value then .ok none
  else
    match searchMDY (pyStr value).data with
    | none => .ok none
    | some (m, d, y) => (strptimeMDY m d y).map some

/-- A worksheet: cell contents addressed by 1-indexed (row, column). -/
def Grid : Type := Nat → Nat → Value

/-- Trimmed string form of a label cell, Python `str(store_name).strip()`. -/
def storeName (v : Value) : String :=
  String.mk (stripChars (pyStr v).data)

/-- One per-store sales row (sheet rows 8–15, columns 2–21). -/
structure SalesRecord where
  date : Date
  store : String
  day_sales_ty : PyFloat
  day_sales_ly : PyFloat
  day_sales_diff : PyFloat
  day_sales_pct : PyFloat
  wtd_sales_ty : PyFloat
  wtd_sales_ly : PyFloat
  wtd_sales_diff : PyFloat
  wtd_sales_pct : PyFloat
  ptd_sales_ty : PyFloat
  ptd_sales_ly : PyFloat
  ptd_sales_diff : PyFloat
  ptd_sales_pct : PyFloat
  ytd_sales_ty : PyFloat
  ytd_sales_ly : PyFloat
  ytd_sales_diff : PyFloat
  ytd_sales_pct : PyFloat
  r13_sales_ty : PyFloat
  r13_sales_ly : PyFloat
  r13_sales_diff : PyFloat
  r13_sales_pct : PyFloat
  deriving DecidableEq, Repr

/-- The brand-totals record (sheet row 16, columns 2–21; no store label). -/
structure BrandRecord where
  date : Date
  day_sales_ty : PyFloat
  day_sales_ly : PyFloat
  day_sales_diff : PyFloat
  day_sales_pct : PyFloat
  wtd_sales_ty : PyFloat
  wtd_sales_ly : PyFloat
  wtd_sales_diff : PyFloat
  wtd_sales_pct : PyFloat
  ptd_sales_ty : PyFloat
  ptd_sales_ly : PyFloat
  ptd_sales_diff : PyFloat
  ptd_sales_pct : PyFloat
  ytd_sales_ty : PyFloat
  ytd_sales_ly : PyFloat
  ytd_sales_diff : PyFloat
  ytd_sales_pct : PyFloat
  r13_sales_ty : PyFloat
  r13_sales_ly : PyFloat
  r13_sales_diff : PyFloat
  r13_sales_pct : PyFloat
  deriving DecidableEq, Repr

/-- One per-store transactions row (sheet rows 54–61): counts are ints
(`safe_int`), the four percent columns floats (`safe_float`). -/
structure TransRecord where
  date : Date
  store : String
  day_trans_ty : Int
  day_trans_ly : Int
  day_trans_diff : Int
  day_trans_pct : PyFloat
  wtd_trans_ty : Int
  wtd_trans_ly : Int
  wtd_trans_diff : Int
  wtd_trans_pct : PyFloat
  ptd_trans_ty : Int
  ptd_trans_ly : Int
  ptd_trans_diff : Int
  ptd_trans_pct : PyFloat
  ytd_trans_ty : Int
  ytd_trans_ly : Int
  ytd_trans_diff : Int
  ytd_trans_pct : PyFloat
  r13_trans_ty : Int
  r13_trans_ly : Int
  r13_trans_diff : Int
  r13_trans_pct : PyFloat
  deriving DecidableEq, Repr

/-- One per-store channel-mix row (sheet rows 66–73). -/
structure ChannelRecord where
  date : Date
  store : String
  avg_check_ty : PyFloat
  avg_check_ly : PyFloat
  avg_check_diff : PyFloat
  avg_check_pct : PyFloat
  dine_in_sales : PyFloat
  dine_in_trans : Int
  dine_in_avg_check : PyFloat
  dine_in_pct_sales : PyFloat
  carry_out_sales : PyFloat
  carry_out_trans : Int
  carry_out_avg_check : PyFloat
  carry_out_pct_sales : PyFloat
  delivery_sales : PyFloat
  delivery_trans : Int
  delivery_avg_check : PyFloat
  delivery_pct_sales : PyFloat
  drive_thru_sales : PyFloat
  drive_thru_trans : Int
  drive_thru_avg_check : PyFloat
  drive_thru_pct_sales : PyFloat
  deriving DecidableEq, Repr

/-- One per-store labor / third-party row (sheet rows 78–85, columns 2–11). -/
structure LaborRecord where
  date : Date
  store : String
  labor_dollars : PyFloat
  labor_pct : PyFloat
  olo_sales : PyFloat
  doordash : PyFloat
  ubereats : PyFloat
  grubhub : PyFloat
  eatstreet : PyFloat
  ezcater : PyFloat
  total_3rd_party_dollars : PyFloat
  total_3rd_party_pct : PyFloat
  deriving DecidableEq, Repr

/-- The bundle `parse_flash_report` returns for one successfully parsed file. -/
structure ParsedReport where
  date : Date
  sales : List SalesRecord
  brand_total : BrandRecord
  transactions : List TransRecord
  channels : List ChannelRecord
  labor : List LaborRecord
  deriving DecidableEq, Repr

/-- Scanned row numbers of the four per-store regions. -/
def salesRows : List Nat := [8, 9, 10, 11, 12, 13, 14, 15]

def transRows : List Nat := [54, 55, 56, 57, 58, 59, 60, 61]

def channelRows : List Nat := [66, 67, 68, 69, 70, 71, 72, 73]

def laborRows : List Nat := [78, 79, 80, 81, 82, 83, 84, 85]

/-- Skip test shared by the transactions, channel and labor regions:
`if not store_name or 'Totals' in str(store_name)`. -/
def skipLabel (v : Value) : Bool :=
  isFalsy v || containsSub (pyStr v) "Totals"

/-- Skip test of the sales region, which additionally drops rows whose label
contains `'Brand'`. -/
def skipSalesLabel (v : Value) : Bool :=
  isFalsy v || containsSub (pyStr v) "Totals" || containsSub (pyStr v) "Brand"

/-- The sales-record dict built for row `r` (all columns via `safe_float`,
which cannot raise). -/
def mkSalesRecord (g : Grid) (d : Date) (r : Nat) : SalesRecord where
  date := d
  store := storeName (g r 1)
  day_sales_ty := sfloatD (g r 2)
  day_sales_ly := sfloatD (g r 3)
  day_sales_diff := sfloatD (g r 4)
  day_sales_pct := sfloatD (g r 5)
  wtd_sales_ty := sfloatD (g r 6)
  wtd_sales_ly := sfloatD (g r 7)
  wtd_sales_diff := sfloatD (g r 8)
  wtd_sales_pct := sfloatD (g r 9)
  ptd_sales_ty := sfloatD (g r 10)
  ptd_sales_ly := sfloatD (g r 11)
  ptd_sales_diff := sfloatD (g r 12)
  ptd_sales_pct := sfloatD (g r 13)
  ytd_sales_ty := sfloatD (g r 14)
  ytd_sales_ly := sfloatD (g r 15)
  ytd_sales_diff := sfloatD (g r 16)
  ytd_sales_pct := sfloatD (g r 17)
  r13_sales_ty := sfloatD (g r 18)
  r13_sales_ly := sfloatD (g r 19)
  r13_sales_diff := sfloatD (g r 20)
  r13_sales_pct := sfloatD (g r 21)

/-- The per-store sales list: rows 8–15, skipping falsy, `Totals` and `Brand`
labels. -/
def salesRecords (g : Grid) (d : Date) : List SalesRecord :=
  salesRows.filterMap fun r =>
    if skipSalesLabel (g r 1) then none else some (mkSalesRecord g d r)

/-- The brand-totals dict, read unconditionally from row 16. -/
def brandRecord (g : Grid) (d : Date) : BrandRecord where
  date := d
  day_sales_ty := sfloatD (g 16 2)
  day_sales_ly := sfloatD (g 16 3)
  day_sales_diff := sfloatD (g 16 4)
  day_sales_pct := sfloatD (g 16 5)
  wtd_sales_ty := sfloatD (g 16 6)
  wtd_sales_ly := sfloatD (g 16 7)
  wtd_sales_diff := sfloatD (g 16 8)
  wtd_sales_pct := sfloatD (g 16 9)
  ptd_sales_ty := sfloatD (g 16 10)
  ptd_sales_ly := sfloatD (g 16 11)
  ptd_sales_diff := sfloatD (g 16 12)
  ptd_sales_pct := sfloatD (g 16 13)
  ytd_sales_ty := sfloatD (g 16 14)
  ytd_sales_ly := sfloatD (g 16 15)
  ytd_sales_diff := sfloatD (g 16 16)
  ytd_sales_pct := sfloatD (g 16 17)
  r13_sales_ty := sfloatD (g 16 18)
  r13_sales_ly := sfloatD (g 16 19)
  r13_sales_diff := sfloatD (g 16 20)
  r13_sales_pct := sfloatD (g 16 21)

/-- The transactions dict for row `r`; the `safe_int` columns are sequenced in
source (dict-literal) order, so the first raising cell aborts the parse. -/
def mkTransRecord (g : Grid) (d : Date) (r : Nat) : Except PyErr TransRecord := do
  let c2 ← safe_int (g r 2)
  let c3 ← safe_int (g r 3)
  let c4 ← safe_int (g r 4)
  let c6 ← safe_int (g r 6)
  let c7 ← safe_int (g r 7)
  let c8 ← safe_int (g r 8)
  let c10 ← safe_int (g r 10)
  let c11 ← safe_int (g r 11)
  let c12 ← safe_int (g r 12)
  let c14 ← safe_int (g r 14)
  let c15 ← safe_int (g r 15)
  let c16 ← safe_int (g r 16)
  let c18 ← safe_int (g r 18)
  let c19 ← safe_int (g r 19)
  let c20 ← safe_int (g r 20)
  pure
    { date := d
      store := storeName (g r 1)
      day_trans_ty := c2
      day_trans_ly := c3
      day_trans_diff := c4
      day_trans_pct := sfloatD (g r 5)
      wtd_trans_ty := c6
      wtd_trans_ly := c7
      wtd_trans_diff := c8
      wtd_trans_pct := sfloatD (g r 9)
      ptd_trans_ty := c10
      ptd_trans_ly := c11
      ptd_trans_diff := c12
      ptd_trans_pct := sfloatD (g r 13)
      ytd_trans_ty := c14
      ytd_trans_ly := c15
      ytd_trans_diff := c16
      ytd_trans_pct := sfloatD (g r 17)
      r13_trans_ty := c18
      r13_trans_ly := c19
      r13_trans_diff := c20
      r13_trans_pct := sfloatD (g r 21) }

/-- The channel-mix dict for row `r`. -/
def mkChannelRecord (g : Grid) (d : Date) (r : Nat) : Except PyErr ChannelRecord := do
  let c7 ← safe_int (g r 7)
  let c11 ← safe_int (g r 11)
  let c15 ← safe_int (g r 15)
  let c19 ← safe_int (g r 19)
  pure
    { date := d
      store := storeName (g r 1)
      avg_check_ty := sfloatD (g r 2)
      avg_check_ly := sfloatD (g r 3)
      avg_check_diff := sfloatD (g r 4)
      avg_check_pct := sfloatD (g r 5)
      dine_in_sales := sfloatD (g r 6)
      dine_in_trans := c7
      dine_in_avg_check := sfloatD (g r 8)
      dine_in_pct_sales := sfloatD (g r 9)
      carry_out_sales := sfloatD (g r 10)
      carry_out_trans := c11
      carry_out_avg_check := sfloatD (g r 12)
      carry_out_pct_sales := sfloatD (g r 13)
      delivery_sales := sfloatD (g r 14)
      delivery_trans := c15
      delivery_avg_check := sfloatD (g r 16)
      delivery_pct_sales := sfloatD (g r 17)
      drive_thru_sales := sfloatD (g r 18)
      drive_thru_trans := c19
      drive_thru_avg_check := sfloatD (g r 20)
      drive_thru_pct_sales := sfloatD (g r 21) }

/-- The labor dict for row `r` (all columns `safe_float`, cannot raise). -/
def mkLaborRecord (g : Grid) (d : Date) (r : Nat) : LaborRecord where
  date := d
  store := storeName (g r 1)
  labor_dollars := sfloatD (g r 2)
  labor_pct := sfloatD (g r 3)
  olo_sales := sfloatD (g r 4)
  doordash := sfloatD (g r 5)
  ubereats := sfloatD (g r 6)
  grubhub := sfloatD (g r 7)
  eatstreet := sfloatD (g r 8)
  ezcater := sfloatD (g r 9)
  total_3rd_party_dollars := sfloatD (g r 10)
  total_3rd_party_pct := sfloatD (g r 11)

/-- Loop body of the scans whose builder may raise: append each kept row's
record, abort on the first raised exception. -/
def scanRowsGo (g : Grid) (mk : Nat → Except PyErr ρ) (acc : List ρ) :
    List Nat → Except PyErr (List ρ)
  | [] => .ok acc
  | r :: rs =>
    if skipLabel (g r 1) then scanRowsGo g mk acc rs
    else
      match mk r with
      | .error e => .error e
      | .ok x => scanRowsGo g mk (acc ++ [x]) rs

/-- Loop-and-append over a row range whose builder may raise, as the source's
`for` loops do: the first raised exception aborts the whole scan. -/
def scanRowsM (g : Grid) (rows : List Nat) (mk : Nat → Except PyErr ρ) :
    Except PyErr (List ρ) :=
  scanRowsGo g mk [] rows

/-- The per-store transactions list: rows 54–61. -/
def transRecords (g : Grid) (d : Date) : Except PyErr (List TransRecord) :=
  scanRowsM g transRows (mkTransRecord g d)

/-- The per-store channel-mix list: rows 66–73. -/
def channelRecords (g : Grid) (d : Date) : Except PyErr (List ChannelRecord) :=
  scanRowsM g channelRows (mkChannelRecord g d)

/-- The per-store labor list: rows 78–85. -/
def laborRecords (g : Grid) (d : Date) : List LaborRecord :=
  laborRows.filterMap fun r =>
    if skipLabel (g r 1) then none else some (mkLaborRecord g d r)

/-- Content of one file on disk: unreadable/corrupt (so `load_workbook`
raises), or a workbook as a named list of sheets. -/
inductive FileContent where
  | corrupt
  | workbook (sheets : List (String × Grid))

/-- Name of the one sheet the parser reads. -/
def sheetName : String := "Multibrand_DailyFlashReport"

/-- Sheet lookup `wb['Multibrand_DailyFlashReport']` (raises `KeyError` when
absent — modelled by `none` here, turned into the error by the caller). -/
def lookupSheet (sheets : List (String × Grid)) : Option Grid :=
  (sheets.find? fun p => p.1 == sheetName).map Prod.snd

/-- Body of the parse once the report date is settled: `None` (no date token)
is a soft skip; with a date, the four regions and the row-16 brand totals are
read, propagating any `safe_int` error. -/
def parseWithDate (g : Grid) : Option Date → Except PyErr (Option ParsedReport)
  | none => .ok none
  | some rd =>
    (transRecords g rd).bind fun trans =>
      (channelRecords g rd).bind fun chans =>
        .ok (some
          { date := rd
            sales := salesRecords g rd
            brand_total := brandRecord g rd
            transactions := trans
            channels := chans
            labor := laborRecords g rd })

/-- Parse of the located worksheet: extract the date from cell A2 (row 2,
column 1) — whose `strptime` error propagates — then the regions. -/
def parseSheet (g : Grid) : Except PyErr (Option ParsedReport) :=
  (parse_date_from_cell (g 2 1)).bind (parseWithDate g)

/-- Outcome of the sheet lookup `wb['Multibrand_DailyFlashReport']`. -/
def parseWorkbook : Option Grid → Except PyErr (Option ParsedReport)
  | none => .error .keyError
  | some g => parseSheet g

/-- The source's `parse_flash_report(filepath)`: raises `ioError` on
unreadable files, `KeyError` on a missing sheet; returns `none` for a file
without a date token; otherwise the five record collections. -/
def parse_flash_report (f : FileContent) : Except PyErr (Option ParsedReport) :=
  match f with
  | .corrupt => .error .ioError
  | .workbook sheets => parseWorkbook (lookupSheet sheets)

/-- Build a sparse test worksheet from an explicit cell list (row, column,
value); unlisted cells are empty. -/
def gridOf (cells : List (Nat × Nat × Value)) : Grid := fun r c =>
  match cells.find? fun t => t.1 == r && t.2.1 == c with
  | some t => t.2.2
  | none => .none

/-! ## The aggregator `load_all_reports` -/

/-- One file of the scanned directory: basename, filesystem modification time
(`os.path.getmtime`), and content. -/
structure DirFile where
  name : String
  mtime : Int
  content : FileContent

/-- The glob pattern `Multibrand_FlashReport*.xlsx` on a basename: fixed
prefix, fixed extension, anything (possibly empty) in between. -/
def matchesGlob (s : String) : Bool :=
  "Multibrand_FlashReport".data.isPrefixOf s.data
    && ".xlsx".data.isSuffixOf s.data
    && 27 ≤ s.data.length

/-- Match `\[\d+\]` exactly at the head of `cs`. -/
def bracketAt : List Char → Option (List Char)
  | '[' :: rest =>
    let ds := rest.takeWhile Char.isDigit
    if ds.isEmpty then none
    else
      match rest.drop ds.length with
      | ']' :: _ => some ('[' :: (ds ++ [']']))
      | _ => none
  | _ => none

/-- Leftmost `re.search(r'(\[\d+\])', basename)`. -/
def bracketSearch : List Char → Option (List Char)
  | [] => none
  | c :: rest =>
    match bracketAt (c :: rest) with
    | some r => some r
    | none => bracketSearch rest

/-- The configured preferred bracket suffixes (`PREFERRED_SUFFIXES`). -/
def PREFERRED_SUFFIXES : List String := ["[74]"]

/-- Whether this basename's bracket suffix is in the preferred set; files
without a bracket match get the suffix `''`, which is never preferred. -/
def isPreferred (name : String) : Bool :=
  match bracketSearch name.data with
  | some tok => PREFERRED_SUFFIXES.contains (String.mk tok)
  | none => false

/-- One candidate of `parsed_by_date`: `(mtime, preferred, parsed result)`
(the filepath component is never read again and is omitted). -/
structure Entry where
  mtime : Int
  preferred : Bool
  result : ParsedReport
  deriving DecidableEq, Repr

/-- The sort key `(e[2], e[1])` of the winner sort. -/
def entryKey (e : Entry) : Bool × Int := (e.preferred, e.mtime)

/-- Strict lexicographic order on sort keys, Python tuple `<` with
`False < True`. -/
def keyLtB (a b : Bool × Int) : Bool :=
  (!a.1 && b.1) || (a.1 == b.1 && decide (a.2 < b.2))

/-- Stable insertion: `x` goes in front of the first element `y` that does not
strictly precede it (`stay y x = false`); elements of equal rank that were
already in the list stay in front.  Any stable sort computes the same list as
Python's stable `list.sort`, so insertion sort is a faithful model. -/
def insertKeep (stay : α → α → Bool) (x : α) : List α → List α
  | [] => [x]
  | y :: ys => if stay y x then y :: insertKeep stay x ys else x :: y :: ys

/-- Stable insertion sort. -/
def sortKeep (stay : α → α → Bool) : List α → List α
  | [] => []
  | x :: xs => insertKeep stay x (sortKeep stay xs)

/-- In `entries.sort(key=..., reverse=True)` an element stays in front of a
later-inserted one iff its key is strictly greater. -/
def stayEntry (y x : Entry) : Bool := keyLtB (entryKey x) (entryKey y)

/-- The winner pick: sort descending by `(preferred, mtime)` (stable) and take
`entries[0]`. -/
def selectWinner (es : List Entry) : Option Entry :=
  (sortKeep stayEntry es).head?

/-- Candidate construction of the first pass for one globbed file: `none`
when the parse raises (the `except` arm: print and continue) or finds no
date. -/
def entryOf (f : DirFile) : Option Entry :=
  match parse_flash_report f.content with
  | .ok (some rep) => some ⟨f.mtime, isPreferred f.name, rep⟩
  | _ => none

/-- All candidates of a directory, in enumeration order. -/
def entriesOf (dir : List DirFile) : List Entry :=
  (dir.filter fun f => matchesGlob f.name).filterMap entryOf

/-- Insert one candidate into the date-grouped association list, preserving
dict insertion order (first occurrence of each date) and appending within a
group. -/
def addEntry : List (Date × List Entry) → Entry → List (Date × List Entry)
  | [], e => [(e.result.date, [e])]
  | (d, g) :: rest, e =>
    if d = e.result.date then (d, g ++ [e]) :: rest
    else (d, g) :: addEntry rest e

/-- `parsed_by_date`: group candidates by report date (Python dict ordering). -/
def groupByDate (es : List Entry) : List (Date × List Entry) :=
  es.foldl addEntry []

/-- The winning parsed report of every date group, in group order. -/
def winnersOf (es : List Entry) : List ParsedReport :=
  (groupByDate es).filterMap fun p => (selectWinner p.2).map (·.result)

/-- A pandas DataFrame, as far as this program observes it: column names and
typed rows. -/
structure Table (ρ : Type) where
  cols : List String
  rows : List ρ
  deriving DecidableEq, Repr

/-- `pd.DataFrame(recs) if recs else pd.DataFrame()`: an empty record list
yields a DataFrame with no columns at all. -/
def mkTable (cols : List String) (rows : List ρ) : Table ρ :=
  if rows.isEmpty then ⟨[], []⟩ else ⟨cols, rows⟩

/-- Sort key used by the final `sort_values('date')`. -/
def dateKey (d : Date) : Nat :=
  d.year * 10000 + d.month * 100 + d.day

/-- The final per-table step: skipped for empty tables (which also lack the
`date` column); otherwise rows sorted by date ascending. -/
def finalizeTable (key : ρ → Date) (cols : List String) (rows : List ρ) : Table ρ :=
  let t := mkTable cols rows
  if t.rows.isEmpty then t
  else ⟨t.cols, sortKeep (fun y x => decide (dateKey (key y) < dateKey (key x))) t.rows⟩

/-- Column schemas of the five output tables (dict key order). -/
def salesColumns : List String :=
  ["date", "store",
   "day_sales_ty", "day_sales_ly", "day_sales_diff", "day_sales_pct",
   "wtd_sales_ty", "wtd_sales_ly", "wtd_sales_diff", "wtd_sales_pct",
   "ptd_sales_ty", "ptd_sales_ly", "ptd_sales_diff", "ptd_sales_pct",
   "ytd_sales_ty", "ytd_sales_ly", "ytd_sales_diff", "ytd_sales_pct",
   "r13_sales_ty", "r13_sales_ly", "r13_sales_diff", "r13_sales_pct"]

def brandColumns : List String :=
  ["date",
   "day_sales_ty", "day_sales_ly", "day_sales_diff", "day_sales_pct",
   "wtd_sales_ty", "wtd_sales_ly", "wtd_sales_diff", "wtd_sales_pct",
   "ptd_sales_ty", "ptd_sales_ly", "ptd_sales_diff", "ptd_sales_pct",
   "ytd_sales_ty", "ytd_sales_ly", "ytd_sales_diff", "ytd_sales_pct",
   "r13_sales_ty", "r13_sales_ly", "r13_sales_diff", "r13_sales_pct"]

def transColumns : List String :=
  ["date", "store",
   "day_trans_ty", "day_trans_ly", "day_trans_diff", "day_trans_pct",
   "wtd_trans_ty", "wtd_trans_ly", "wtd_trans_diff", "wtd_trans_pct",
   "ptd_trans_ty", "ptd_trans_ly", "ptd_trans_diff", "ptd_trans_pct",
   "ytd_trans_ty", "ytd_trans_ly", "ytd_trans_diff", "ytd_trans_pct",
   "r13_trans_ty", "r13_trans_ly", "r13_trans_diff", "r13_trans_pct"]

def channelColumns : List String :=
  ["date", "store",
   "avg_check_ty", "avg_check_ly", "avg_check_diff", "avg_check_pct",
   "dine_in_sales", "dine_in_trans", "dine_in_avg_check", "dine_in_pct_sales",
   "carry_out_sales", "carry_out_trans", "carry_out_avg_check", "carry_out_pct_sales",
   "delivery_sales", "delivery_trans", "delivery_avg_check", "delivery_pct_sales",
   "drive_thru_sales", "drive_thru_trans", "drive_thru_avg_check", "drive_thru_pct_sales"]

def laborColumns : List String :=
  ["date", "store",
   "labor_dollars", "labor_pct", "olo_sales", "doordash", "ubereats",
   "grubhub", "eatstreet", "ezcater", "total_3rd_party_dollars", "total_3rd_party_pct"]

/-- The five output tables. -/
structure Tables where
  sales : Table SalesRecord
  brand_totals : Table BrandRecord
  transactions : Table TransRecord
  channels : Table ChannelRecord
  labor : Table LaborRecord
  deriving DecidableEq, Repr

/-- Second pass plus table assembly, as a function of the candidate list. -/
def assembleTables (es : List Entry) : Tables :=
  let winners := winnersOf es
  let all_sales := winners.foldl (fun acc r => acc ++ r.sales) []
  let all_brand_totals := winners.map (·.brand_total)
  let all_transactions := winners.foldl (fun acc r => acc ++ r.transactions) []
  let all_channels := winners.foldl (fun acc r => acc ++ r.channels) []
  let all_labor := winners.foldl (fun acc r => acc ++ r.labor) []
  { sales := finalizeTable (·.date) salesColumns all_sales
    brand_totals := finalizeTable (·.date) brandColumns all_brand_totals
    transactions := finalizeTable (·.date) transColumns all_transactions
    channels := finalizeTable (·.date) channelColumns all_channels
    labor := finalizeTable (·.date) laborColumns all_labor }

/-- The source's `load_all_reports(folder_path)`, over a directory snapshot
(basename, mtime, content per file): glob, parse every file with per-file
failure isolation, group by date, pick one winner per date, concatenate and
sort by date. -/
def load_all_reports (dir : List DirFile) : Tables :=
  assembleTables (entriesOf dir)

/-- The five-empty-tables result of a directory with no usable file. -/
def emptyTables : Tables :=
  ⟨⟨[], []⟩, ⟨[], []⟩, ⟨[], []⟩, ⟨[], []⟩, ⟨[], []⟩⟩

/-! ## Winner-selection lemmas -/

/-- Better of the head entry and the best of the remainder; the head wins
ties, since it comes earlier in enumeration order. -/
def combineMax (e : Entry) : Option Entry → Entry
  | none => e
  | some m => if keyLtB (entryKey e) (entryKey m) then m else e

/-- First element of the list attaining the maximal sort key (earlier entries
win ties).  `selectWinner` computes exactly this. -/
def firstMax? : List Entry → Option Entry
  | [] => none
  | e :: rest => some (combineMax e (firstMax? rest))

theorem keyLtB_irrefl (a : Bool × Int) : keyLtB a a = false := by
  obtain ⟨p, x⟩ := a
  cases p <;> simp [keyLtB]

theorem keyLtB_asymm (a b : Bool × Int) (h : keyLtB a b = true) :
    keyLtB b a = false := by
  obtain ⟨p, x⟩ := a
  obtain ⟨q, y⟩ := b
  cases p <;> cases q <;> simp [keyLtB] at h ⊢ <;> omega

theorem keyLtB_le_trans (a b c : Bool × Int) (h1 : keyLtB a b = false)
    (h2 : keyLtB b c = false) : keyLtB a c = false := by
  obtain ⟨p, x⟩ := a
  obtain ⟨q, y⟩ := b
  obtain ⟨s, z⟩ := c
  cases p <;> cases q <;> cases s <;> simp [keyLtB] at h1 h2 ⊢ <;> omega

theorem keyLtB_ne (a b : Bool × Int) (h : keyLtB a b = true) : a ≠ b := by
  intro rfl_eq
  rw [rfl_eq, keyLtB_irrefl] at h
  cases h

theorem insertKeep_head (stay : α → α → Bool) (x : α) (l : List α) :
    (insertKeep stay x l).head? =
      some (match l.head? with
            | none => x
            | some y => if stay y x then y else x) := by
  cases l with
  | nil => rfl
  | cons y ys =>
    simp only [insertKeep, List.head?_cons]
    split <;> simp

theorem firstMax?_eq_none (es : List Entry) : firstMax? es = none ↔ es = [] := by
  cases es <;> simp [firstMax?]

theorem selectWinner_eq_firstMax (es : List Entry) :
    selectWinner es = firstMax? es := by
  induction es with
  | nil => rfl
  | cons e rest ih =>
    show (insertKeep stayEntry e (sortKeep stayEntry rest)).head? = _
    rw [insertKeep_head]
    have hh : (sortKeep stayEntry rest).head? = firstMax? rest := ih
    rw [hh]
    simp only [firstMax?]
    cases firstMax? rest <;> rfl

theorem firstMax?_max (es : List Entry) (w : Entry) (h : firstMax? es = some w) :
    ∀ e ∈ es, keyLtB (entryKey w) (entryKey e) = false := by
  induction es generalizing w with
  | nil => simp [firstMax?] at h
  | cons e rest ih =>
    intro x hx
    simp only [firstMax?] at h
    have hw := Option.some.inj h
    cases hm : firstMax? rest with
    | none =>
      rw [hm] at hw
      simp only [combineMax] at hw
      have hrest : rest = [] := (firstMax?_eq_none rest).mp hm
      subst hrest
      have hx' : x = e := by simpa using hx
      rw [← hw, hx']
      exact keyLtB_irrefl _
    | some m =>
      rw [hm] at hw
      simp only [combineMax] at hw
      have hmax := ih m hm
      rcases List.mem_cons.mp hx with rfl | hmem
      · by_cases hlt : keyLtB (entryKey x) (entryKey m) = true
        · rw [if_pos hlt] at hw
          rw [← hw]
          exact keyLtB_asymm _ _ hlt
        · rw [if_neg hlt] at hw
          rw [← hw]
          exact keyLtB_irrefl _
      · by_cases hlt : keyLtB (entryKey e) (entryKey m) = true
        · rw [if_pos hlt] at hw
          rw [← hw]
          exact hmax x hmem
        · rw [if_neg hlt] at hw
          rw [← hw]
          exact keyLtB_le_trans _ _ _ (Bool.eq_false_iff.mpr hlt) (hmax x hmem)

theorem firstMax?_find (es : List Entry) (w : Entry) (h : firstMax? es = some w) :
    es.find? (fun e => decide (entryKey e = entryKey w)) = some w := by
  induction es generalizing w with
  | nil => simp [firstMax?] at h
  | cons e rest ih =>
    simp only [firstMax?] at h
    have hw := Option.some.inj h
    cases hm : firstMax? rest with
    | none =>
      rw [hm] at hw
      simp only [combineMax] at hw
      subst hw
      simp [List.find?_cons]
    | some m =>
      rw [hm] at hw
      simp only [combineMax] at hw
      by_cases hlt : keyLtB (entryKey e) (entryKey m) = true
      · rw [if_pos hlt] at hw
        subst hw
        have hne : entryKey e ≠ entryKey m := keyLtB_ne _ _ hlt
        rw [List.find?_cons_of_neg _ (by simpa using hne)]
        exact ih m hm
      · rw [if_neg hlt] at hw
        subst hw
        exact List.find?_cons_of_pos _ (by simp)

theorem insertKeep_perm (stay : α → α → Bool) (x : α) (l : List α) :
    (insertKeep stay x l).Perm (x :: l) := by
  induction l with
  | nil => exact List.Perm.refl _
  | cons y ys ih =>
    simp only [insertKeep]
    split
    · exact ((ih.cons y).trans (List.Perm.swap x y ys))
    · exact List.Perm.refl _

theorem sortKeep_perm (stay : α → α → Bool) (l : List α) :
    (sortKeep stay l).Perm l := by
  induction l with
  | nil => exact List.Perm.refl _
  | cons x xs ih =>
    exact (insertKeep_perm stay x (sortKeep stay xs)).trans (ih.cons x)

theorem selectWinner_mem (es : List Entry) (w : Entry) (h : selectWinner es = some w) :
    w ∈ es := by
  have hmem : w ∈ sortKeep stayEntry es := by
    unfold selectWinner at h
    cases hs : sortKeep stayEntry es with
    | nil => rw [hs] at h; cases h
    | cons a l =>
      rw [hs] at h
      have : a = w := by simpa using h
      subst this
      exact List.mem_cons_self _ _
  exact (sortKeep_perm stayEntry es).mem_iff.mp hmem

-- Concrete evaluation checks of the embedding
example : parse_date_from_cell (.str "Selected Date:2/22/2026") = .ok (some ⟨2026, 2, 22⟩) := by decide
example : parse_date_from_cell (.str "Selected Date:13/13/2026") = .error .valueError := by decide
example : parse_date_from_cell (.str "nothing here") = .ok none := by decide
example : parse_date_from_cell .none = .ok none := by decide
example : parse_date_from_cell (.str "x117/1/2026") = .error .valueError := by decide
example : parse_date_from_cell (.str "1/2/34567") = .ok (some ⟨3456, 1, 2⟩) := by decide
example : safe_int (.str "inf") = .error .overflowError := by decide
example : safe_int (.str "12.9") = .ok 12 := by decide
example : safe_int (.str "-12.9") = .ok (-12) := by decide
example : safe_float (.str "1234.5") = .ok (.finite (mkRat 12345 10)) := by decide
example : safe_float (.str "-") = .ok (.finite 0) := by decide
example : safe_float .none = .ok (.finite 0) := by decide
example : safe_int (.str "nan") = .ok 0 := by decide
example : safe_float (.str "abc") = .ok (.finite 0) := by decide
example : safe_float (.str " 2e3 ") = .ok (.finite 2000) := by decide
example :
    (parse_flash_report (.workbook [(sheetName,
        gridOf [(2, 1, .str "Selected Date:2/22/2026"), (54, 1, .str "TOTALS")])])).map
      (fun o => o.map fun rep => rep.transactions.map (·.store)) =
    .ok (some ["TOTALS"]) := by decide
example :
    (parse_flash_report (.workbook [(sheetName,
        gridOf [(2, 1, .str "Selected Date:2/22/2026"), (9, 1, .str "Brand Totals"),
                (10, 1, .str "Store A")])])).map
      (fun o => o.map fun rep => rep.sales.map (·.store)) =
    .ok (some ["Store A"]) := by decide
example : parse_flash_report (.workbook [("Sheet1", gridOf [])]) = .error .keyError := by decide
example : parse_flash_report .corrupt = .error .ioError := by decide
example : parse_flash_report (.workbook [(sheetName, gridOf [])]) = .ok none := by decide
example : load_all_reports [] = emptyTables := by decide
example : matchesGlob "Multibrand_FlashReport[74].xlsx" = true := by decide
example : matchesGlob "Multibrand_FlashReport.xlsx" = true := by decide
example : matchesGlob "notes.txt" = false := by decide
example : isPreferred "Multibrand_FlashReport[74].xlsx" = true := by decide
example : isPreferred "Multibrand_FlashReport[50].xlsx" = false := by decide
example :
    let mkFile (store : String) (name : String) (mt : Int) : DirFile :=
      ⟨name, mt, .workbook [(sheetName,
        gridOf [(2, 1, .str "Selected Date:6/1/2026"), (8, 1, .str store)])]⟩
    (load_all_reports
      [mkFile "FromNewer" "Multibrand_FlashReport[50].xlsx" 1000,
       mkFile "FromPreferred" "Multibrand_FlashReport[74].xlsx" 0]).sales.rows.map (·.store) =
    ["FromPreferred"] := by decide
example :
    let mkFile (store : String) (name : String) (mt : Int) : DirFile :=
      ⟨name, mt, .workbook [(sheetName,
        gridOf [(2, 1, .str "Selected Date:6/1/2026"), (8, 1, .str store)])]⟩
    (load_all_reports
      [mkFile "Older" "Multibrand_FlashReport[1].xlsx" 5,
       mkFile "Newer" "Multibrand_FlashReport[2].xlsx" 9]).sales.rows.map (·.store) =
    ["Newer"] := by decide

/-! ## Claim theorems -/

/-- Helper: a `skipLabel` that fails means the label is truthy and free of the
(case-sensitive) marker `"Totals"`. -/
theorem skipLabel_false_iff (v : Value) :
    skipLabel v = false ↔ isFalsy v = false ∧ containsSub (pyStr v) "Totals" = false := by
  unfold skipLabel
  cases isFalsy v <;> cases containsSub (pyStr v) "Totals" <;> simp

/-- Helper: rows surviving the raising scans come from in-range rows whose
label passed the skip test. -/
theorem scanRowsGo_mem (g : Grid) (mk : Nat → Except PyErr ρ) :
    ∀ (rows : List Nat) (acc l : List ρ), scanRowsGo g mk acc rows = .ok l →
      ∀ x ∈ l, x ∈ acc ∨ ∃ r ∈ rows, skipLabel (g r 1) = false ∧ mk r = .ok x := by
  intro rows
  induction rows with
  | nil =>
    intro acc l h x hx
    left
    have : acc = l := Except.ok.inj h
    rw [this]
    exact hx
  | cons r rs ih =>
    intro acc l h x hx
    simp only [scanRowsGo] at h
    by_cases hs : skipLabel (g r 1) = true
    · rw [if_pos hs] at h
      rcases ih acc l h x hx with hacc | ⟨r', hr', hsk, hmk⟩
      · exact Or.inl hacc
      · exact Or.inr ⟨r', List.mem_cons_of_mem _ hr', hsk, hmk⟩
    · rw [if_neg hs] at h
      cases hmk : mk r with
      | error e => rw [hmk] at h; cases h
      | ok y =>
        rw [hmk] at h
        rcases ih (acc ++ [y]) l h x hx with hacc | ⟨r', hr', hsk, hmk'⟩
        · rcases List.mem_append.mp hacc with h1 | h2
          · exact Or.inl h1
          · have hxy : x = y := by simpa using h2
            subst hxy
            exact Or.inr ⟨r, List.mem_cons_self _ _, Bool.eq_false_iff.mpr hs, hmk⟩
        · exact Or.inr ⟨r', List.mem_cons_of_mem _ hr', hsk, hmk'⟩

theorem scanRowsM_mem (g : Grid) (rows : List Nat) (mk : Nat → Except PyErr ρ)
    (l : List ρ) (h : scanRowsM g rows mk = .ok l) :
    ∀ x ∈ l, ∃ r ∈ rows, skipLabel (g r 1) = false ∧ mk r = .ok x := by
  intro x hx
  rcases scanRowsGo_mem g mk rows [] l h x hx with hacc | hr
  · cases hacc
  · exact hr

/-- C1: winner selection per date is deterministic: ordering candidates by
(is-preferred descending, modified-time descending) and taking the head gives
a winner that (i) no candidate strictly beats under the lexicographic key,
(ii) is preferred whenever any candidate is preferred, (iii) has the newest
mtime among candidates of its own preference status, and (iv) is the first
candidate in enumeration order carrying the winning key, so full ties resolve
to enumeration order. -/
theorem claim1_winner_selection (es : List Entry) (w : Entry)
    (h : selectWinner es = some w) :
    (∀ e ∈ es, keyLtB (entryKey w) (entryKey e) = false)
  ∧ (∀ e ∈ es, e.preferred = true → w.preferred = true)
  ∧ (∀ e ∈ es, e.preferred = w.preferred → e.mtime ≤ w.mtime)
  ∧ es.find? (fun e => decide (entryKey e = entryKey w)) = some w := by
  have hfm : firstMax? es = some w := by rw [← selectWinner_eq_firstMax]; exact h
  have hmax := firstMax?_max es w hfm
  refine ⟨hmax, ?_, ?_, firstMax?_find es w hfm⟩
  · intro e he hp
    cases hq : w.preferred with
    | true => rfl
    | false =>
      have hke := hmax e he
      rw [entryKey, entryKey, hp, hq] at hke
      simp [keyLtB] at hke
  · intro e he hp
    have hke := hmax e he
    rw [entryKey, entryKey, hp] at hke
    simp [keyLtB] at hke
    omega

/-- A report date used by the concrete test files. -/
def sampleDate : Date := ⟨2026, 6, 1⟩

/-- A minimal parsed report for exercising the aggregation layer. -/
def sampleReport : ParsedReport where
  date := sampleDate
  sales := []
  brand_total := brandRecord (gridOf []) sampleDate
  transactions := []
  channels := []
  labor := []

/-- Non-preferred candidate with the newer mtime. -/
def entryA : Entry := ⟨10, false, sampleReport⟩

/-- Preferred candidate with the older mtime. -/
def entryB : Entry := ⟨5, true, sampleReport⟩

/-- Witness for C1: with a newer non-preferred and an older preferred
candidate, the preferred one wins and satisfies all four properties. -/
theorem claim1_witness :
    (∀ e ∈ [entryA, entryB], keyLtB (entryKey entryB) (entryKey e) = false)
  ∧ (∀ e ∈ [entryA, entryB], e.preferred = true → entryB.preferred = true)
  ∧ (∀ e ∈ [entryA, entryB], e.preferred = entryB.preferred → e.mtime ≤ entryB.mtime)
  ∧ [entryA, entryB].find? (fun e => decide (entryKey e = entryKey entryB)) = some entryB :=
  claim1_winner_selection [entryA, entryB] entryB (by decide)

/-- Worksheet whose transactions-region row 54 is labelled `"TOTALS"`. -/
def gTotalsCase : Grid :=
  gridOf [(2, 1, .str "Selected Date:2/22/2026"), (54, 1, .str "TOTALS")]

/-- File wrapping `gTotalsCase`. -/
def fTotalsCase : FileContent := .workbook [(sheetName, gTotalsCase)]

/-- Counterexample for C2: the label `"TOTALS"` contains `"Totals"` up to
letter case, yet its row is NOT excluded — the parse emits a transactions
record with store `"TOTALS"`, because the source's membership test
`'Totals' in str(store_name)` is case-sensitive. -/
theorem claim2_counterexample :
    containsSub (String.mk ((pyStr (gTotalsCase 54 1)).data.map Char.toLower)) "totals" = true
  ∧ (parse_flash_report fTotalsCase).map
      (fun o => o.map fun rep => rep.transactions.map (·.store)) = .ok (some ["TOTALS"]) := by
  decide

/-- C2 amended: a row whose label cell contains the case-sensitive substring
`"Totals"` is excluded from all four per-store record sets — every record any
region emits originates from an in-range row whose label does not contain
`"Totals"`. -/
theorem claim2_totals_excluded (g : Grid) (d : Date) :
    (∀ rcd ∈ salesRecords g d,
       ∃ r ∈ salesRows, containsSub (pyStr (g r 1)) "Totals" = false
         ∧ rcd = mkSalesRecord g d r)
  ∧ (∀ l, transRecords g d = .ok l → ∀ rcd ∈ l,
       ∃ r ∈ transRows, containsSub (pyStr (g r 1)) "Totals" = false
         ∧ mkTransRecord g d r = .ok rcd)
  ∧ (∀ l, channelRecords g d = .ok l → ∀ rcd ∈ l,
       ∃ r ∈ channelRows, containsSub (pyStr (g r 1)) "Totals" = false
         ∧ mkChannelRecord g d r = .ok rcd)
  ∧ (∀ rcd ∈ laborRecords g d,
       ∃ r ∈ laborRows, containsSub (pyStr (g r 1)) "Totals" = false
         ∧ rcd = mkLaborRecord g d r) := by
  refine ⟨?_, ?_, ?_, ?_⟩
  · intro rcd h
    obtain ⟨r, hr, hf⟩ := List.mem_filterMap.mp h
    by_cases hs : skipSalesLabel (g r 1) = true
    · rw [if_pos hs] at hf; cases hf
    · rw [if_neg hs] at hf
      refine ⟨r, hr, ?_, (Option.some.inj hf).symm⟩
      revert hs
      unfold skipSalesLabel
      cases containsSub (pyStr (g r 1)) "Totals" <;>
        cases isFalsy (g r 1) <;> cases containsSub (pyStr (g r 1)) "Brand" <;> simp
  · intro l hl rcd hrcd
    obtain ⟨r, hr, hsk, hmk⟩ := scanRowsM_mem g transRows _ l hl rcd hrcd
    exact ⟨r, hr, ((skipLabel_false_iff _).mp hsk).2, hmk⟩
  · intro l hl rcd hrcd
    obtain ⟨r, hr, hsk, hmk⟩ := scanRowsM_mem g channelRows _ l hl rcd hrcd
    exact ⟨r, hr, ((skipLabel_false_iff _).mp hsk).2, hmk⟩
  · intro rcd h
    obtain ⟨r, hr, hf⟩ := List.mem_filterMap.mp h
    by_cases hs : skipLabel (g r 1) = true
    · rw [if_pos hs] at hf; cases hf
    · rw [if_neg hs] at hf
      exact ⟨r, hr, ((skipLabel_false_iff _).mp (Bool.eq_false_iff.mpr hs)).2,
        (Option.some.inj hf).symm⟩

/-- Worksheet with an ordinary store label in the labor region. -/
def gLabelB : Grid := gridOf [(78, 1, .str "Store B")]

/-- Witness for C2 (amended): on a concrete sheet, the emitted labor record
comes from a row whose label does not contain `"Totals"`. -/
theorem claim2_witness :
    ∃ r ∈ laborRows, containsSub (pyStr (gLabelB r 1)) "Totals" = false
      ∧ mkLaborRecord gLabelB sampleDate 78 = mkLaborRecord gLabelB sampleDate r :=
  (claim2_totals_excluded gLabelB sampleDate).2.2.2
    (mkLaborRecord gLabelB sampleDate 78) (by decide)

/-- Whether a parse outcome is a successful report (`.ok (some _)`). -/
def isOkSome : Except PyErr (Option ParsedReport) → Bool
  | .ok (some _) => true
  | _ => false

/-- A directory file that contributes to the batch: matches the glob and
parses to a report. -/
def usableB (f : DirFile) : Bool :=
  matchesGlob f.name && isOkSome (parse_flash_report f.content)

/-- Helper: a file whose parse is not a successful report yields no
candidate. -/
theorem entryOf_eq_none (f : DirFile)
    (h : isOkSome (parse_flash_report f.content) = false) : entryOf f = none := by
  unfold entryOf
  unfold isOkSome at h
  cases hp : parse_flash_report f.content with
  | error e => rfl
  | ok o =>
    cases o with
    | none => rfl
    | some rep => rw [hp] at h; cases h

/-- Helper: a directory with no usable file produces no candidates. -/
theorem entriesOf_nil_of_unusable (dir : List DirFile)
    (h : ∀ f ∈ dir, usableB f = false) : entriesOf dir = [] := by
  induction dir with
  | nil => rfl
  | cons f rest ih =>
    have hf := h f (List.mem_cons_self _ _)
    have hrest := ih fun f' hf' => h f' (List.mem_cons_of_mem _ hf')
    unfold entriesOf at hrest ⊢
    cases hm : matchesGlob f.name with
    | false =>
      rw [List.filter_cons_of_neg (by simp [hm])]
      exact hrest
    | true =>
      have hok : isOkSome (parse_flash_report f.content) = false := by
        unfold usableB at hf
        rw [hm] at hf
        simpa using hf
      rw [List.filter_cons_of_pos (by simp [hm]), List.filterMap_cons,
        entryOf_eq_none f hok]
      exact hrest

/-- Counterexample for C3: on an empty directory the five tables are empty
but carry NO columns (`pd.DataFrame()` has an empty column index), not the
record-kind schemas the claim asserts. -/
theorem claim3_counterexample :
    (load_all_reports []).sales.rows = []
  ∧ (load_all_reports []).sales.cols ≠ salesColumns
  ∧ (load_all_reports []).brand_totals.cols ≠ brandColumns
  ∧ (load_all_reports []).transactions.cols ≠ transColumns
  ∧ (load_all_reports []).channels.cols ≠ channelColumns
  ∧ (load_all_reports []).labor.cols ≠ laborColumns := by
  decide

/-- C3 amended: when no file matches the glob or every matching file fails to
parse, `load_all_reports` returns five empty tables whose column lists are
empty (the no-columns `pd.DataFrame()`), and raises no error (it is total and
returns this value). -/
theorem claim3_empty_output (dir : List DirFile)
    (h : ∀ f ∈ dir, usableB f = false) :
    load_all_reports dir = emptyTables := by
  unfold load_all_reports
  rw [entriesOf_nil_of_unusable dir h]
  decide

/-- A corrupt globbed file and a non-matching file. -/
def dirUnusable : List DirFile :=
  [⟨"Multibrand_FlashReport[9].xlsx", 0, .corrupt⟩, ⟨"notes.txt", 0, .corrupt⟩]

/-- Witness for C3 (amended): a directory holding only a corrupt report file
and a non-matching file yields the five no-column empty tables. -/
theorem claim3_witness : load_all_reports dirUnusable = emptyTables :=
  claim3_empty_output dirUnusable (by decide)

/-- Counterexample for C4: coercion can throw.  The text `"inf"` parses as an
infinite float, and `int(float("inf"))` raises `OverflowError`, which
`safe_int`'s `except (ValueError, TypeError)` does not catch. -/
theorem claim4_counterexample :
    safe_int (.str "inf") = .error .overflowError := by decide

/-- C4 amended: the empty markers `None`, `""`, `"-"` and every failed
numeric parse coerce to the defaults `0.0` / `0`; `safe_float` never raises;
`safe_int` raises only `OverflowError`, and only on values whose float parse
is `±inf` (such as the text `"inf"`). -/
theorem claim4_coercion_safety (v : Value) :
    (isEmptyMarker v = true → safe_float v = .ok (.finite 0) ∧ safe_int v = .ok 0)
  ∧ (∀ s, v = .str s → pyParseFloat s = none →
       safe_float v = .ok (.finite 0) ∧ safe_int v = .ok 0)
  ∧ safe_float v = .ok (sfloatD v)
  ∧ (∀ e, safe_int v = .error e →
       e = .overflowError ∧ (pyFloatOf v = .ok .inf ∨ pyFloatOf v = .ok .neginf)) := by
  refine ⟨?_, ?_, safe_float_eq_ok v, ?_⟩
  · intro h
    constructor <;> simp [safe_float, safe_int, h]
  · rintro s rfl hp
    by_cases he : isEmptyMarker (.str s) = true
    · constructor <;> simp [safe_float, safe_int, he]
    · have hv : pyFloatOf (.str s) = .error .valueError := by
        simp [pyFloatOf, hp, exceptOfParse]
      constructor <;>
        simp [safe_float, safe_int, he, hv, Bind.bind, Except.bind, catchVT]
  · intro e h
    unfold safe_int at h
    by_cases he : isEmptyMarker v = true
    · rw [if_pos he] at h; cases h
    · rw [if_neg he] at h
      cases hpf : pyFloatOf v with
      | error e' =>
        rcases pyFloatOf_error v e' hpf with rfl | rfl <;>
          rw [hpf] at h <;> simp [Bind.bind, Except.bind, catchVT] at h
      | ok f =>
        rw [hpf] at h
        cases f with
        | finite q => simp [Bind.bind, Except.bind, pyIntOfFloat, catchVT] at h
        | inf =>
          simp only [Bind.bind, Except.bind, pyIntOfFloat, catchVT,
            Except.error.injEq] at h
          exact ⟨h.symm, Or.inl rfl⟩
        | neginf =>
          simp only [Bind.bind, Except.bind, pyIntOfFloat, catchVT,
            Except.error.injEq] at h
          exact ⟨h.symm, Or.inr rfl⟩
        | nan => simp [Bind.bind, Except.bind, pyIntOfFloat, catchVT] at h

/-- Witness for C4 (amended): the dash placeholder coerces to both defaults. -/
theorem claim4_witness :
    safe_float (.str "-") = .ok (.finite 0) ∧ safe_int (.str "-") = .ok 0 :=
  (claim4_coercion_safety (.str "-")).1 (by decide)

/-- Helper: inversion of a successful parse — its report is assembled exactly
from the located sheet's regions with the extracted date. -/
theorem parse_flash_report_ok_some (sheets : List (String × Grid)) (g : Grid)
    (rep : ParsedReport) (hlk : lookupSheet sheets = some g)
    (h : parse_flash_report (.workbook sheets) = .ok (some rep)) :
    ∃ rd l1 l2, parse_date_from_cell (g 2 1) = .ok (some rd)
      ∧ transRecords g rd = .ok l1 ∧ channelRecords g rd = .ok l2
      ∧ rep = { date := rd, sales := salesRecords g rd,
                brand_total := brandRecord g rd, transactions := l1,
                channels := l2, labor := laborRecords g rd } := by
  simp only [parse_flash_report] at h
  rw [hlk] at h
  simp only [parseWorkbook, parseSheet] at h
  cases hd : parse_date_from_cell (g 2 1) with
  | error e => rw [hd] at h; simp [Except.bind] at h
  | ok od =>
    rw [hd] at h
    simp only [Except.bind] at h
    cases od with
    | none => simp [parseWithDate] at h
    | some rd =>
      simp only [parseWithDate] at h
      cases ht : transRecords g rd with
      | error e => rw [ht] at h; simp [Except.bind] at h
      | ok l1 =>
        rw [ht] at h
        simp only [Except.bind] at h
        cases hc : channelRecords g rd with
        | error e => rw [hc] at h; simp [Except.bind] at h
        | ok l2 =>
          rw [hc] at h
          simp only [Except.bind, Except.ok.injEq, Option.some.injEq] at h
          exact ⟨rd, l1, l2, rfl, ht, hc, h.symm⟩

/-- Worksheet whose header date token has the `M/D/YYYY` shape but is not a
calendar date. -/
def gInvalidDate : Grid := gridOf [(2, 1, .str "Selected Date:13/13/2026")]

/-- File wrapping `gInvalidDate`. -/
def fInvalidDate : FileContent := .workbook [(sheetName, gInvalidDate)]

/-- Counterexample for C5: the header cell contains an embedded
`\d{1,2}/\d{1,2}/\d{4}` token (`13/13/2026`), yet the parser does not extract
it as the report date — `strptime` raises `ValueError`, which escapes
`parse_flash_report` instead of a soft skip. -/
theorem claim5_counterexample :
    (searchMDY (pyStr (gInvalidDate 2 1)).data).isSome = true
  ∧ parse_flash_report fInvalidDate = .error .valueError := by decide

/-- C5 amended: date extraction (i) returns the token's calendar date when
the first shape-matching token is a valid date, (ii) raises `ValueError`
(propagating out of `parse_flash_report`, caught per-file by the aggregator)
when the first token is not a valid calendar date, (iii) soft-fails to `.ok
none` when no token matches, in which case `parse_flash_report` returns `.ok
none` and raises nothing; the sample cell `"Selected Date:2/22/2026"` parses
to 2026-02-22. -/
theorem claim5_date_extraction :
    (∀ v m d y, isFalsy v = false → searchMDY (pyStr v).data = some (m, d, y) →
       (validMDY m d y = true → parse_date_from_cell v = .ok (some ⟨y, m, d⟩))
     ∧ (validMDY m d y = false → parse_date_from_cell v = .error .valueError))
  ∧ (∀ v, isFalsy v = false → searchMDY (pyStr v).data = none →
       parse_date_from_cell v = .ok none)
  ∧ (∀ sheets g, lookupSheet sheets = some g →
       parse_date_from_cell (g 2 1) = .ok none →
       parse_flash_report (.workbook sheets) = .ok none)
  ∧ parse_date_from_cell (.str "Selected Date:2/22/2026") = .ok (some ⟨2026, 2, 22⟩) := by
  refine ⟨?_, ?_, ?_, by decide⟩
  · intro v m d y hfalsy hsearch
    constructor <;> intro hv <;>
      simp [parse_date_from_cell, hfalsy, hsearch, strptimeMDY, hv, Except.map]
  · intro v hfalsy hsearch
    simp [parse_date_from_cell, hfalsy, hsearch]
  · intro sheets g hlk hd
    simp only [parse_flash_report]
    rw [hlk]
    simp only [parseWorkbook, parseSheet]
    rw [hd]
    simp [Except.bind, parseWithDate]

/-- Witness for C5 (amended): a dateless header cell soft-fails and the whole
file parse returns no result without raising. -/
theorem claim5_witness :
    parse_date_from_cell (.str "no date here") = .ok none
  ∧ parse_flash_report (.workbook [(sheetName, gridOf [(2, 1, .str "no date here")])]) =
      .ok none := by
  constructor
  · exact (claim5_date_extraction.2.1 (.str "no date here") (by decide) (by decide))
  · exact claim5_date_extraction.2.2.1 [(sheetName, gridOf [(2, 1, .str "no date here")])]
      (gridOf [(2, 1, .str "no date here")]) (by rfl)
      (claim5_date_extraction.2.1 (.str "no date here") (by decide) (by decide))

/-- C6: numeric-looking strings coerce losslessly to float, and to int by
float-then-truncate toward zero; in particular `"12.9"` and `"12.7"` coerce
to the integer `12`. -/
theorem claim6_numeric_coercion :
    (∀ s q, pyParseFloat s = some (.finite q) →
       safe_float (.str s) = .ok (.finite q) ∧ safe_int (.str s) = .ok (truncRat q))
  ∧ safe_int (.str "12.9") = .ok 12
  ∧ safe_int (.str "12.7") = .ok 12
  ∧ safe_int (.str "-12.9") = .ok (-12) := by
  refine ⟨?_, by decide, by decide, by decide⟩
  intro s q hp
  have hne : isEmptyMarker (.str s) = false := by
    simp only [isEmptyMarker]
    by_cases h1 : s = ""
    · subst h1; rw [(by decide : pyParseFloat "" = none)] at hp; cases hp
    · by_cases h2 : s = "-"
      · subst h2; rw [(by decide : pyParseFloat "-" = none)] at hp; cases hp
      · simp [h1, h2]
  have hv : pyFloatOf (.str s) = .ok (.finite q) := by
    simp [pyFloatOf, hp, exceptOfParse]
  constructor
  · simp [safe_float, hne, hv, catchVT]
  · simp [safe_int, hne, hv, Bind.bind, Except.bind, pyIntOfFloat, catchVT]

/-- Witness for C6: `"1234.5"` parses to the exact value 1234.5 and coerces
to float 1234.5 and int 1234. -/
theorem claim6_witness :
    safe_float (.str "1234.5") = .ok (.finite (mkRat 12345 10))
  ∧ safe_int (.str "1234.5") = .ok (truncRat (mkRat 12345 10)) :=
  claim6_numeric_coercion.1 "1234.5" (mkRat 12345 10) (by decide)

/-- C7: every sales-region row whose label contains `"Brand"` is excluded
from the per-store sales records (each emitted record originates from a row
without `"Brand"` in its label), and the brand-total record of every
successfully parsed file is the one read at the fixed row 16, tagged with the
report date. -/
theorem claim7_brand_row :
    (∀ (g : Grid) (d : Date), ∀ rcd ∈ salesRecords g d,
       ∃ r ∈ salesRows, containsSub (pyStr (g r 1)) "Brand" = false
         ∧ rcd = mkSalesRecord g d r)
  ∧ (∀ sheets g rep, lookupSheet sheets = some g →
       parse_flash_report (.workbook sheets) = .ok (some rep) →
       rep.brand_total = brandRecord g rep.date) := by
  constructor
  · intro g d rcd h
    obtain ⟨r, hr, hf⟩ := List.mem_filterMap.mp h
    by_cases hs : skipSalesLabel (g r 1) = true
    · rw [if_pos hs] at hf; cases hf
    · rw [if_neg hs] at hf
      refine ⟨r, hr, ?_, (Option.some.inj hf).symm⟩
      revert hs
      unfold skipSalesLabel
      cases containsSub (pyStr (g r 1)) "Brand" <;>
        cases isFalsy (g r 1) <;> cases containsSub (pyStr (g r 1)) "Totals" <;> simp
  · intro sheets g rep hlk h
    obtain ⟨rd, l1, l2, _, _, _, hrep⟩ := parse_flash_report_ok_some sheets g rep hlk h
    rw [hrep]

/-- Worksheet with a normal store row and a row whose label contains
`"Brand"` in the sales region. -/
def gBrandCase : Grid :=
  gridOf [(2, 1, .str "Selected Date:2/22/2026"), (8, 1, .str "Store A"),
          (9, 1, .str "Brand Totals")]

/-- Witness for C7: on `gBrandCase` the only emitted sales record is the
`"Store A"` row; the theorem locates its `"Brand"`-free source row. -/
theorem claim7_witness :
    ∃ r ∈ salesRows, containsSub (pyStr (gBrandCase r 1)) "Brand" = false
      ∧ mkSalesRecord gBrandCase sampleDate 8 = mkSalesRecord gBrandCase sampleDate r :=
  claim7_brand_row.1 gBrandCase sampleDate (mkSalesRecord gBrandCase sampleDate 8) (by decide)

/-- Helper: `entriesOf` distributes over directory concatenation. -/
theorem entriesOf_append (a b : List DirFile) :
    entriesOf (a ++ b) = entriesOf a ++ entriesOf b := by
  unfold entriesOf
  rw [List.filter_append, List.filterMap_append]

/-- Helper: a single non-usable file yields no candidate. -/
theorem entriesOf_single_unusable (f : DirFile) (h : usableB f = false) :
    entriesOf [f] = [] := by
  apply entriesOf_nil_of_unusable
  intro f' hf'
  have : f' = f := by simpa using hf'
  rw [this]
  exact h

/-- Helper: dropping the non-usable files leaves the candidate list
unchanged. -/
theorem entriesOf_filter_usable (dir : List DirFile) :
    entriesOf (dir.filter usableB) = entriesOf dir := by
  induction dir with
  | nil => rfl
  | cons f rest ih =>
    cases hu : usableB f with
    | true =>
      have hg : matchesGlob f.name = true := by
        have h' := hu
        unfold usableB at h'
        simp only [Bool.and_eq_true] at h'
        exact h'.1
      rw [List.filter_cons_of_pos hu]
      unfold entriesOf at ih ⊢
      rw [List.filter_cons_of_pos (by simp [hg]), List.filter_cons_of_pos (by simp [hg]),
        List.filterMap_cons, List.filterMap_cons]
      cases entryOf f <;> simp only [] <;> rw [ih]
    | false =>
      rw [List.filter_cons_of_neg (by simp [hu])]
      rw [ih]
      cases hg : matchesGlob f.name with
      | false =>
        unfold entriesOf
        rw [List.filter_cons_of_neg (by simp [hg])]
      | true =>
        have hok : isOkSome (parse_flash_report f.content) = false := by
          unfold usableB at hu
          rw [hg] at hu
          simpa using hu
        unfold entriesOf
        rw [List.filter_cons_of_pos (by simp [hg]), List.filterMap_cons,
          entryOf_eq_none f hok]

/-- C8: per-file failure isolation.  A file that fails to parse — corrupt
(read error), wrong or missing sheet, or missing date token — contributes
nothing: removing it from the directory leaves all five output tables
unchanged, and the aggregator is a total function (no parse exception escapes
it).  Equivalently, the whole batch equals the batch over the usable files
only. -/
theorem claim8_failure_isolation :
    (∀ (pre post : List DirFile) (f : DirFile), usableB f = false →
       load_all_reports (pre ++ f :: post) = load_all_reports (pre ++ post))
  ∧ (∀ dir : List DirFile, load_all_reports (dir.filter usableB) = load_all_reports dir) := by
  constructor
  · intro pre post f hu
    unfold load_all_reports
    have h1 : pre ++ f :: post = (pre ++ [f]) ++ post := by simp
    rw [h1, entriesOf_append, entriesOf_append, entriesOf_append,
      entriesOf_single_unusable f hu, List.append_nil]
  · intro dir
    unfold load_all_reports
    rw [entriesOf_filter_usable]

/-- A well-formed report file for the aggregation witnesses. -/
def fileGood : DirFile :=
  ⟨"Multibrand_FlashReport[74].xlsx", 3,
   .workbook [(sheetName, gBrandCase)]⟩

/-- A corrupt report file (its read raises). -/
def fileCorrupt : DirFile := ⟨"Multibrand_FlashReport[9].xlsx", 7, .corrupt⟩

/-- Witness for C8: inserting a corrupt file into a directory with one good
file leaves the output unchanged. -/
theorem claim8_witness :
    load_all_reports [fileGood, fileCorrupt] = load_all_reports [fileGood] :=
  claim8_failure_isolation.1 [fileGood] [] fileCorrupt (by decide)

/-- C9: determinism across runs.  The output tables are a function of the
directory snapshot alone: two runs that see the same files — same basenames,
same modification times, same contents, in the same enumeration order —
produce identical output tables for all five datasets. -/
theorem claim9_determinism (d1 d2 : List DirFile)
    (h : ∀ i, (d1.get? i).map (fun f => (f.name, f.mtime, f.content)) =
              (d2.get? i).map (fun f => (f.name, f.mtime, f.content))) :
    load_all_reports d1 = load_all_reports d2 := by
  have heq : d1 = d2 := by
    apply List.ext_get?
    intro i
    have hi := h i
    cases h1 : d1.get? i with
    | none =>
      cases h2 : d2.get? i with
      | none => rfl
      | some f2 => rw [h1, h2] at hi; simp at hi
    | some f1 =>
      cases h2 : d2.get? i with
      | none => rw [h1, h2] at hi; simp at hi
      | some f2 =>
        rw [h1, h2] at hi
        simp at hi
        obtain ⟨hn, hm, hc⟩ := hi
        cases f1
        cases f2
        simp_all
  rw [heq]

/-- Witness for C9: two runs over the same concrete one-file directory agree. -/
theorem claim9_witness :
    load_all_reports [fileGood] = load_all_reports [fileGood] :=
  claim9_determinism [fileGood] [fileGood] (fun _ => rfl)

/-- The all-default brand-total record of a date: every numeric field 0.0. -/
def zeroBrand (d : Date) : BrandRecord where
  date := d
  day_sales_ty := .finite 0
  day_sales_ly := .finite 0
  day_sales_diff := .finite 0
  day_sales_pct := .finite 0
  wtd_sales_ty := .finite 0
  wtd_sales_ly := .finite 0
  wtd_sales_diff := .finite 0
  wtd_sales_pct := .finite 0
  ptd_sales_ty := .finite 0
  ptd_sales_ly := .finite 0
  ptd_sales_diff := .finite 0
  ptd_sales_pct := .finite 0
  ytd_sales_ty := .finite 0
  ytd_sales_ly := .finite 0
  ytd_sales_diff := .finite 0
  ytd_sales_pct := .finite 0
  r13_sales_ty := .finite 0
  r13_sales_ly := .finite 0
  r13_sales_diff := .finite 0
  r13_sales_pct := .finite 0

/-- Helper: every group of `groupByDate` is non-empty and all its members
carry the group's date. -/
theorem groupByDate_inv (es : List Entry) :
    ∀ p ∈ groupByDate es, p.2 ≠ [] ∧ ∀ e ∈ p.2, e.result.date = p.1 := by
  have haux : ∀ (acc : List (Date × List Entry)) (e : Entry),
      (∀ p ∈ acc, p.2 ≠ [] ∧ ∀ x ∈ p.2, x.result.date = p.1) →
      ∀ p ∈ addEntry acc e, p.2 ≠ [] ∧ ∀ x ∈ p.2, x.result.date = p.1 := by
    intro acc e
    induction acc with
    | nil =>
      intro _ p hp
      have hp' : p = (e.result.date, [e]) := by simpa [addEntry] using hp
      subst hp'
      refine ⟨by simp, ?_⟩
      intro x hx
      have : x = e := by simpa using hx
      subst this
      rfl
    | cons q rest ih =>
      intro hinv p hp
      obtain ⟨d, gl⟩ := q
      simp only [addEntry] at hp
      by_cases hd : d = e.result.date
      · rw [if_pos hd] at hp
        rcases List.mem_cons.mp hp with rfl | hmem
        · refine ⟨by simp, ?_⟩
          intro x hx
          rcases List.mem_append.mp hx with h1 | h2
          · exact (hinv (d, gl) (List.mem_cons_self _ _)).2 x h1
          · have : x = e := by simpa using h2
            subst this
            exact hd.symm
        · exact hinv p (List.mem_cons_of_mem _ hmem)
      · rw [if_neg hd] at hp
        rcases List.mem_cons.mp hp with h1 | hmem
        · subst h1
          exact hinv (d, gl) (List.mem_cons_self _ _)
        · exact ih (fun p' hp' => hinv p' (List.mem_cons_of_mem _ hp')) p hmem
  have hmain : ∀ (l : List Entry) (acc : List (Date × List Entry)),
      (∀ p ∈ acc, p.2 ≠ [] ∧ ∀ x ∈ p.2, x.result.date = p.1) →
      ∀ p ∈ l.foldl addEntry acc, p.2 ≠ [] ∧ ∀ x ∈ p.2, x.result.date = p.1 := by
    intro l
    induction l with
    | nil => intro acc hinv; simpa using hinv
    | cons e rest ih =>
      intro acc hinv
      exact ih (addEntry acc e) (haux acc e hinv)
  exact hmain es [] (by simp)

/-- Helper: the key list of `addEntry` — unchanged for an already-present
date, extended by the new date otherwise. -/
theorem addEntry_keys (acc : List (Date × List Entry)) (e : Entry) :
    (addEntry acc e).map Prod.fst =
      if e.result.date ∈ acc.map Prod.fst then acc.map Prod.fst
      else acc.map Prod.fst ++ [e.result.date] := by
  induction acc with
  | nil => simp [addEntry]
  | cons q rest ih =>
    obtain ⟨d, gl⟩ := q
    simp only [addEntry]
    by_cases hd : d = e.result.date
    · rw [if_pos hd]
      simp [hd]
    · rw [if_neg hd]
      simp only [List.map_cons, ih]
      by_cases hmem : e.result.date ∈ rest.map Prod.fst
      · rw [if_pos hmem, if_pos (by simp [hmem])]
      · rw [if_neg hmem,
          if_neg (by simp [hmem]; exact fun hh => hd hh.symm)]
        simp

/-- Helper: the dates keying `groupByDate` are pairwise distinct. -/
theorem groupByDate_keys_nodup (es : List Entry) :
    ((groupByDate es).map Prod.fst).Nodup := by
  have hmain : ∀ (l : List Entry) (acc : List (Date × List Entry)),
      (acc.map Prod.fst).Nodup → ((l.foldl addEntry acc).map Prod.fst).Nodup := by
    intro l
    induction l with
    | nil => intro acc h; simpa using h
    | cons e rest ih =>
      intro acc h
      apply ih
      rw [addEntry_keys]
      by_cases hmem : e.result.date ∈ acc.map Prod.fst
      · rwa [if_pos hmem]
      · rw [if_neg hmem]
        simp [List.nodup_append, h, hmem]
  exact hmain es [] (by simp)

/-- Helper: a non-empty candidate list always yields a winner. -/
theorem selectWinner_isSome (es : List Entry) (h : es ≠ []) :
    ∃ w, selectWinner es = some w := by
  cases es with
  | nil => exact absurd rfl h
  | cons e rest =>
    rw [selectWinner_eq_firstMax]
    exact ⟨_, rfl⟩

/-- Helper: over any group list satisfying the grouping invariant, the
winners' report dates are exactly the group keys, in order. -/
theorem winners_dates_aux (gl : List (Date × List Entry))
    (hinv : ∀ p ∈ gl, p.2 ≠ [] ∧ ∀ e ∈ p.2, e.result.date = p.1) :
    ((gl.filterMap fun p => (selectWinner p.2).map (·.result)).map (·.date)) =
      gl.map Prod.fst := by
  induction gl with
  | nil => rfl
  | cons p rest ih =>
    have hp := hinv p (List.mem_cons_self _ _)
    obtain ⟨w, hw⟩ := selectWinner_isSome p.2 hp.1
    have hwd : w.result.date = p.1 := hp.2 w (selectWinner_mem p.2 w hw)
    have ih' := ih fun p' hp' => hinv p' (List.mem_cons_of_mem _ hp')
    rw [List.filterMap_cons, hw]
    simp [hwd, ih']

/-- Helper: the winners' report dates are exactly the group keys, in order. -/
theorem winnersOf_dates (es : List Entry) :
    (winnersOf es).map (·.date) = (groupByDate es).map Prod.fst :=
  winners_dates_aux (groupByDate es) (groupByDate_inv es)

/-- Helper: there is exactly one winner per date group. -/
theorem winnersOf_length (es : List Entry) :
    (winnersOf es).length = (groupByDate es).length := by
  have h := congrArg List.length (winnersOf_dates es)
  simpa using h

/-- Helper: stable insertion sort preserves length. -/
theorem sortKeep_length (stay : α → α → Bool) (l : List α) :
    (sortKeep stay l).length = l.length :=
  (sortKeep_perm stay l).length_eq

/-- Helper: the final per-table sort-by-date step preserves the number of
rows. -/
theorem finalizeTable_rows_length (key : ρ → Date) (cols : List String)
    (rows : List ρ) : (finalizeTable key cols rows).rows.length = rows.length := by
  cases rows with
  | nil => rfl
  | cons a as => simp [finalizeTable, mkTable, sortKeep_length]

/-- C10 (implicit invariant): every successful parse carries exactly one
brand-total record tagged with the report date; the brand-total row is read
unconditionally, so an all-empty row 16 yields the all-zero record; and the
aggregated `brand_totals` table has exactly one row per winning date, the
winning dates being pairwise distinct. -/
theorem claim10_brand_total_invariant :
    (∀ sheets g rep, lookupSheet sheets = some g →
       parse_flash_report (.workbook sheets) = .ok (some rep) →
       rep.brand_total.date = rep.date)
  ∧ (∀ (g : Grid) (d : Date), (∀ c, g 16 c = Value.none) →
       brandRecord g d = zeroBrand d)
  ∧ (∀ dir : List DirFile,
       (load_all_reports dir).brand_totals.rows.length =
         (groupByDate (entriesOf dir)).length
     ∧ ((groupByDate (entriesOf dir)).map Prod.fst).Nodup) := by
  refine ⟨?_, ?_, ?_⟩
  · intro sheets g rep hlk h
    obtain ⟨rd, l1, l2, _, _, _, hrep⟩ := parse_flash_report_ok_some sheets g rep hlk h
    rw [hrep]
    rfl
  · intro g d h
    have hz : sfloatD Value.none = .finite 0 := rfl
    simp [brandRecord, zeroBrand, h, hz]
  · intro dir
    constructor
    · show (assembleTables (entriesOf dir)).brand_totals.rows.length = _
      simp only [assembleTables]
      rw [finalizeTable_rows_length, List.length_map]
      exact winnersOf_length (entriesOf dir)
    · exact groupByDate_keys_nodup (entriesOf dir)

/-- Witness for C10: a completely empty row 16 produces the all-zero
brand-total record. -/
theorem claim10_witness :
    brandRecord (gridOf []) sampleDate = zeroBrand sampleDate :=
  claim10_brand_total_invariant.2.1 (gridOf []) sampleDate (fun _ => rfl)
